import Mathlib

/-!
Shallow embedding of the EchoVerse API server (`server.js`): the narrative
generator (`AIService`), the SQLite-backed data model (three tables), and the
Express route handlers.  JavaScript numbers are modelled as exact rationals
(`ℚ`), `Math.floor` as the integer floor, `Math.random()` draws as an explicit
stream of rationals in `[0,1)`, and `uuidv4()` as an explicit supply of
strings.  Timestamps are modelled as naturals.  Fallible JavaScript
expressions (`JSON.parse`) return `Option`; an uncaught exception in a handler
is the `thrown` response.
-/

namespace EchoVerse

/-- JavaScript whitespace characters recognised by `\s` and `String.trim`
(ASCII subset used throughout the model; both the code-side and the spec-side
definitions use the same set). -/
def jsWsChars : List Char := [' ', '\t', '\n', '\r', '\x0b', '\x0c']

def isWs (c : Char) : Bool := jsWsChars.contains c

/-- `String.prototype.trim`: drop leading and trailing whitespace. -/
def trimList (l : List Char) : List Char :=
  ((l.dropWhile isWs).reverse.dropWhile isWs).reverse

/-- `String.prototype.toLowerCase` (ASCII model). -/
def jsToLower (s : String) : String := String.mk (s.data.map Char.toLower)

/-- Case-insensitive literal match: if `pat` (compared via `Char.toLower`) is
an initial segment of `s`, return the remainder. -/
def stripCI : List Char → List Char → Option (List Char)
  | [], s => some s
  | _ :: _, [] => none
  | p :: ps, c :: cs => if p.toLower = c.toLower then stripCI ps cs else none

/-- Match the regex `^pat\s+` (case-insensitive, `\s+` greedy): the pattern
must be followed by at least one whitespace character, and the whole
whitespace run is consumed. -/
def matchHeadWs (pat : List Char) (s : List Char) : Option (List Char) :=
  match stripCI pat s with
  | some (c :: cs) => if isWs c then some (cs.dropWhile isWs) else none
  | _ => none

/-- `event.replace(/^(what if|if)\s+/i, '')`: the alternation tries
`what if` first, then `if`; anchored at the start, at most one replacement. -/
def replaceLeadingIf (s : List Char) : List Char :=
  match matchHeadWs ("what if".data) s with
  | some r => r
  | none =>
    match matchHeadWs ("if".data) s with
    | some r => r
    | none => s

/-- `AIService.extractTitle`:
`event.replace(/^(what if|if)\s+/i, '').trim()`. -/
def extractTitle (s : String) : String :=
  String.mk (trimList (replaceLeadingIf s.data))

/-- Spec-side rendering of the claim about `extractTitle`: strip one leading
occurrence of `what if` or `if` case-insensitively, only when it is followed
by whitespace, keep the remainder (whitespace included) and trim it; a string
with no such leading occurrence is returned trimmed but otherwise unchanged. -/
def extractTitleSpec (s : String) : String :=
  match stripCI ("what if".data) s.data with
  | some (c :: cs) =>
    if isWs c then String.mk (trimList (c :: cs)) else tail s
  | _ => tail s
where
  tail (s : String) : String :=
    match stripCI ("if".data) s.data with
    | some (c :: cs) =>
      if isWs c then String.mk (trimList (c :: cs)) else String.mk (trimList s.data)
    | _ => String.mk (trimList s.data)

/-! ## JSON model

A model of the JavaScript `JSON` global used by the handlers: `JSON.parse`
returns `Option Json` (`none` is a thrown `SyntaxError`) and `JSON.stringify`
renders a value.  Numbers are rationals; the parser accepts integers and
finite decimal fractions (every JavaScript number that the server stores is a
double, hence rendered as a finite decimal). -/

inductive Json where
  | null : Json
  | bool : Bool → Json
  | num : ℚ → Json
  | str : String → Json
  | arr : List Json → Json
  | obj : List (String × Json) → Json

def jsonWs (c : Char) : Bool := c = ' ' || c = '\t' || c = '\n' || c = '\r'

def skipJWs (l : List Char) : List Char := l.dropWhile jsonWs

def digitsToNat (l : List Char) : Nat :=
  l.foldl (fun a c => a * 10 + (c.toNat - 48)) 0

/-- Parse a JSON number: optional minus, digits, optional fraction. -/
def parseNumTok (l : List Char) : Option (ℚ × List Char) :=
  let (neg, l1) := match l with
    | '-' :: t => (true, t)
    | _ => (false, l)
  match l1.takeWhile Char.isDigit, l1.dropWhile Char.isDigit with
  | [], _ => none
  | ds, rest =>
    let ip : ℚ := (digitsToNat ds : ℚ)
    match rest with
    | '.' :: r2 =>
      match r2.takeWhile Char.isDigit, r2.dropWhile Char.isDigit with
      | [], _ => none
      | fs, r3 =>
        let v := ip + (digitsToNat fs : ℚ) / ((10 : ℚ) ^ fs.length)
        some (if neg then -v else v, r3)
    | _ => some (if neg then -ip else ip, rest)

/-- Parse the body of a JSON string literal after the opening quote,
handling the common escapes. -/
def parseStrTok : Nat → List Char → Option (List Char × List Char)
  | 0, _ => none
  | _, [] => none
  | f + 1, c :: rest =>
    if c = '"' then some ([], rest)
    else if c = '\\' then
      match rest with
      | [] => none
      | e :: rest2 =>
        let d : Option Char :=
          if e = '"' then some '"'
          else if e = '\\' then some '\\'
          else if e = '/' then some '/'
          else if e = 'n' then some '\n'
          else if e = 't' then some '\t'
          else if e = 'r' then some '\r'
          else if e = 'b' then some '\x08'
          else if e = 'f' then some '\x0c'
          else none
        match d with
        | none => none
        | some dc => (parseStrTok f rest2).map (fun p => (dc :: p.1, p.2))
    else (parseStrTok f rest).map (fun p => (c :: p.1, p.2))

mutual

def parseVal : Nat → List Char → Option (Json × List Char)
  | 0, _ => none
  | f + 1, l =>
    match skipJWs l with
    | 'n' :: 'u' :: 'l' :: 'l' :: r => some (.null, r)
    | 't' :: 'r' :: 'u' :: 'e' :: r => some (.bool true, r)
    | 'f' :: 'a' :: 'l' :: 's' :: 'e' :: r => some (.bool false, r)
    | '"' :: r => (parseStrTok f r).map (fun p => (.str (String.mk p.1), p.2))
    | '[' :: r =>
      match skipJWs r with
      | ']' :: r2 => some (.arr [], r2)
      | r2 => (parseItems f r2).map (fun p => (.arr p.1, p.2))
    | '\x7b' :: r =>
      match skipJWs r with
      | '\x7d' :: r2 => some (.obj [], r2)
      | r2 => (parseMembers f r2).map (fun p => (.obj p.1, p.2))
    | l2 => (parseNumTok l2).map (fun p => (.num p.1, p.2))

def parseItems : Nat → List Char → Option (List Json × List Char)
  | 0, _ => none
  | f + 1, l =>
    match parseVal f l with
    | none => none
    | some (j, rest) =>
      match skipJWs rest with
      | ',' :: r2 => (parseItems f r2).map (fun p => (j :: p.1, p.2))
      | ']' :: r2 => some ([j], r2)
      | _ => none

def parseMembers : Nat → List Char → Option (List (String × Json) × List Char)
  | 0, _ => none
  | f + 1, l =>
    match skipJWs l with
    | '"' :: r =>
      match parseStrTok f r with
      | none => none
      | some (k, rest) =>
        match skipJWs rest with
        | ':' :: r2 =>
          match parseVal f r2 with
          | none => none
          | some (v, rest2) =>
            match skipJWs rest2 with
            | ',' :: r3 => (parseMembers f r3).map (fun p => ((String.mk k, v) :: p.1, p.2))
            | '\x7d' :: r3 => some ([(String.mk k, v)], r3)
            | _ => none
        | _ => none
    | _ => none

end

/-- `JSON.parse`, as an `Option`-valued total function: `none` models a thrown
`SyntaxError`.  The fuel is ample for any input of the given length. -/
def Json.parse (s : String) : Option Json :=
  match parseVal (s.length * 4 + 16) s.data with
  | some (j, rest) => if skipJWs rest = [] then some j else none
  | none => none

/-- Escape a character for a JSON string literal. -/
def escChar (c : Char) : List Char :=
  if c = '"' then ['\\', '"'] else if c = '\\' then ['\\', '\\'] else [c]

/-- Render a rational as a JSON number token.  Doubles always have a finite
decimal expansion; a rational whose reduced denominator does not divide
`10 ^ 30` (never produced by the modelled arithmetic on double inputs) is
truncated to 30 fractional digits. -/
def ratDigits : Nat → ℚ → List Char
  | 0, _ => []
  | f + 1, q =>
    if q = 0 then []
    else
      let d := ⌊q * 10⌋.toNat
      (Char.ofNat (48 + d)) :: ratDigits f (q * 10 - (d : ℚ))

def renderNum (q : ℚ) : List Char :=
  let sign : List Char := if q < 0 then ['-'] else []
  let a := |q|
  let ip := ⌊a⌋.toNat
  let frac := a - (ip : ℚ)
  if frac = 0 then sign ++ (toString ip).data
  else sign ++ (toString ip).data ++ '.' :: ratDigits 30 frac

mutual

def Json.stringify : Json → List Char
  | .null => "null".data
  | .bool true => "true".data
  | .bool false => "false".data
  | .num q => renderNum q
  | .str s => '"' :: (s.data.flatMap escChar ++ ['"'])
  | .arr xs => '[' :: (stringifyItems xs ++ [']'])
  | .obj ms => '\x7b' :: (stringifyMembers ms ++ ['\x7d'])

def stringifyItems : List Json → List Char
  | [] => []
  | [x] => x.stringify
  | x :: y :: xs => x.stringify ++ ',' :: stringifyItems (y :: xs)

def stringifyMembers : List (String × Json) → List Char
  | [] => []
  | [(k, v)] => '"' :: (k.data.flatMap escChar ++ '"' :: ':' :: v.stringify)
  | (k, v) :: m :: ms =>
    '"' :: (k.data.flatMap escChar ++ '"' :: ':' :: v.stringify) ++ ',' :: stringifyMembers (m :: ms)

end

/-- `JSON.stringify` as a `String`. -/
def Json.stringifyStr (j : Json) : String := String.mk j.stringify

/-! ## AIService

The narrative generator.  `Math.random()` is modelled as an explicit stream
`rand : ℕ → ℚ` of draws consumed in program order (its contract, values in
`[0,1)`, is the hypothesis `ValidRand`), and `uuidv4()` as a stream of
strings.  `Math.floor` is the integer floor. -/

structure GenState where
  rand : ℕ → ℚ
  randIdx : ℕ
  uuids : ℕ → String
  uuidIdx : ℕ

/-- The contract of `Math.random()`: every draw lies in `[0, 1)`. -/
def ValidRand (r : ℕ → ℚ) : Prop := ∀ n, 0 ≤ r n ∧ r n < 1

def nextRand (gs : GenState) : ℚ × GenState :=
  (gs.rand gs.randIdx, { gs with randIdx := gs.randIdx + 1 })

def nextUuid (gs : GenState) : String × GenState :=
  (gs.uuids gs.uuidIdx, { gs with uuidIdx := gs.uuidIdx + 1 })

/-- `Math.floor` on a JavaScript number (modelled as `ℚ`). -/
def jsFloor (q : ℚ) : ℤ := ⌊q⌋

/-- `AIService.fallbackOutcomes` (10 entries). -/
def fallbackOutcomes : List String :=
  ["opened unexpected opportunities", "created new challenges to overcome",
   "led to meeting influential people", "sparked a passion for learning",
   "resulted in a career pivot", "strengthened personal relationships",
   "developed valuable life skills", "inspired creative pursuits",
   "built financial independence", "fostered personal growth"]

/-- `AIService.fallbackConsequences` (8 entries). -/
def fallbackConsequences : List String :=
  ["starting a successful business", "moving to a dream location",
   "discovering hidden talents", "building lasting friendships",
   "overcoming personal fears", "achieving work-life balance",
   "contributing to meaningful causes", "mastering new technologies"]

structure Outcome where
  id : String
  title : String
  description : String
  probability : ℚ
  impact : ℤ
  consequences : List String

structure Reality where
  title : String
  description : String
  outcomes : List Outcome
  probability : ℚ
  impact : ℤ

/-- Loop body of `AIService.generateOutcomes`: build `count` outcomes starting
at index `i`, threading the random and uuid supplies in program order. -/
def buildOutcomes : Nat → Nat → GenState → List Outcome × GenState
  | 0, _, gs => ([], gs)
  | k + 1, i, gs =>
    let (u1, gs) := nextRand gs
    let outcome := fallbackOutcomes.getD (jsFloor (u1 * 10)).toNat ""
    let (u2, gs) := nextRand gs
    let consequence := fallbackConsequences.getD (jsFloor (u2 * 8)).toNat ""
    let (oid, gs) := nextUuid gs
    let (u3, gs) := nextRand gs
    let (u4, gs) := nextRand gs
    let o : Outcome :=
      { id := oid
        title := "Path " ++ toString (i + 1)
        description := "This decision " ++ outcome ++ ", ultimately leading to " ++ consequence
        probability := u3 * 0.8 + 0.1
        impact := jsFloor (u4 * 10) + 1
        consequences := [consequence] }
    let (rest, gs) := buildOutcomes k (i + 1) gs
    (o :: rest, gs)

/-- `AIService.generateOutcomes`: 2 to 4 outcomes. -/
def generateOutcomes (gs : GenState) : List Outcome × GenState :=
  let (u, gs) := nextRand gs
  let numOutcomes := (jsFloor (u * 3)).toNat + 2
  buildOutcomes numOutcomes 0 gs

/-- `AIService.generateDescription`: pick one of four templates interpolating
the lower-cased event. -/
def generateDescription (event : String) (gs : GenState) : String × GenState :=
  let low := jsToLower event
  let templates : List String :=
    ["In this reality, " ++ low ++ " fundamentally changed your life trajectory",
     "The decision to " ++ low ++ " created a cascade of unexpected events",
     "By choosing " ++ low ++ ", you entered a completely different timeline",
     "This alternative where " ++ low ++ " shaped who you became"]
  let (u, gs) := nextRand gs
  (templates.getD (jsFloor (u * 4)).toNat "", gs)

/-- `AIService.generateFallbackReality`: the catch-branch result. -/
def generateFallbackReality (event : String) (gs : GenState) : Reality × GenState :=
  let (oid, gs) := nextUuid gs
  ({ title := extractTitle event
     description := "A reality where " ++ jsToLower event ++ " led to profound changes"
     outcomes :=
       [{ id := oid
          title := "Alternative Path"
          description := "This path led to unexpected developments"
          probability := 0.6
          impact := 7
          consequences := ["significant life changes"] }]
     probability := 0.5
     impact := 6 }, gs)

/-- The `try` block of `AIService.generateReality`.  Every step is total on
string inputs, so the body always succeeds; the `Except` wrapper records that
the JavaScript block runs under a `try`. -/
def generateRealityTry (event : String) (gs : GenState) : Except Unit (Reality × GenState) :=
  let (outcomes, gs) := generateOutcomes gs
  let (description, gs) := generateDescription event gs
  let (u1, gs) := nextRand gs
  let (u2, gs) := nextRand gs
  .ok ({ title := extractTitle event
         description := description
         outcomes := outcomes
         probability := u1 * 0.7 + 0.2
         impact := jsFloor (u2 * 8) + 3 }, gs)

/-- The `try`/`catch` dispatch of `AIService.generateReality`: a raised body
falls back to `generateFallbackReality`. -/
def runGenerate (body : Except Unit (Reality × GenState)) (event : String) (gs : GenState) :
    Reality × GenState :=
  match body with
  | .ok r => r
  | .error _ => generateFallbackReality event gs

/-- `AIService.generateReality`. -/
def generateReality (event : String) (gs : GenState) : Reality × GenState :=
  runGenerate (generateRealityTry event gs) event gs

/-! ## Persistence model

The three SQLite tables as lists of rows in insertion (rowid) order.  Nullable
text columns are `Option String`; `created_at` timestamps are naturals
supplied by the caller.  The modelled store never fails, so the
`db.run`/`db.all` error branches (500 responses) are unreachable here. -/

structure RealityRow where
  id : String
  user_session : String
  title : String
  description : String
  original_event : String
  outcomes : Option String
  probability_score : ℚ
  impact_score : ℤ
  created_at : ℕ

structure TreeRow where
  id : String
  user_session : String
  tree_data : Option String
  share_token : Option String
  is_public : Bool
  view_count : ℕ
  created_at : ℕ

structure AnalyticsRow where
  id : ℕ
  user_session : String
  event_type : String
  event_data : String
  timestamp : ℕ

structure DB where
  realities : List RealityRow
  reality_trees : List TreeRow
  analytics : List AnalyticsRow
  nextAnalyticsId : ℕ

def DB.empty : DB := ⟨[], [], [], 1⟩

/-- Whole-server state: the store plus the random/uuid supplies. -/
structure ServerState where
  db : DB
  gs : GenState

def nextUuidS (st : ServerState) : String × ServerState :=
  let (u, gs) := nextUuid st.gs
  (u, { st with gs := gs })

/-- Outcome of one request: `json` is `res.json(...)` (status 200),
`err s m` is `res.status(s).json(\x7b error: m \x7d)`, and `thrown` is an
uncaught synchronous exception — no response is produced. -/
inductive HResp (α : Type) where
  | json : α → HResp α
  | err : ℕ → String → HResp α
  | thrown : HResp α

/-- `logEvent`: fire-and-forget insert into `analytics`; the modelled store
never fails, so the swallowed-error branch is unreachable. -/
def logEvent (db : DB) (userSession eventType eventData : String) (now : ℕ) : DB :=
  { db with
    analytics := db.analytics ++
      [{ id := db.nextAnalyticsId, user_session := userSession,
         event_type := eventType, event_data := eventData, timestamp := now }]
    nextAnalyticsId := db.nextAnalyticsId + 1 }

/-! ### POST /api/realities -/

structure RealitiesBody where
  event : Option String
  userSession : Option String

structure RealityCreated where
  id : String
  userSession : String
  title : String
  description : String
  outcomes : List Outcome
  probability : ℚ
  impact : ℤ
  timestamp : ℕ

/-- Serialise a generated outcome the way `JSON.stringify` renders the
JavaScript object (fields in construction order). -/
def outcomeToJson (o : Outcome) : Json :=
  .obj [("id", .str o.id), ("title", .str o.title), ("description", .str o.description),
        ("probability", .num o.probability), ("impact", .num (o.impact : ℚ)),
        ("consequences", .arr (o.consequences.map .str))]

def outcomesToText (outs : List Outcome) : String :=
  (Json.arr (outs.map outcomeToJson)).stringifyStr

/-- `app.post('/api/realities')`: validate `event` non-empty after trim
(else 400), generate, insert the row, log `create_reality`, respond with the
reality.  The destructuring default `userSession = uuidv4()` consumes a uuid
before validation when the field is absent, exactly as in the source. -/
def postRealities (body : RealitiesBody) (now : ℕ) (st : ServerState) :
    HResp RealityCreated × ServerState :=
  let (sess, st) := match body.userSession with
    | some s => (s, st)
    | none => nextUuidS st
  let eventOk : Option String := match body.event with
    | none => none
    | some ev => if (trimList ev.data).isEmpty then none else some ev
  match eventOk with
  | none => (.err 400 "Event description is required", st)
  | some ev =>
    let (reality, gs) := generateReality ev st.gs
    let st := { st with gs := gs }
    let (realityId, st) := nextUuidS st
    let row : RealityRow :=
      { id := realityId, user_session := sess, title := reality.title,
        description := reality.description, original_event := ev,
        outcomes := some (outcomesToText reality.outcomes),
        probability_score := reality.probability, impact_score := reality.impact,
        created_at := now }
    let db := { st.db with realities := st.db.realities ++ [row] }
    let db := logEvent db sess "create_reality"
      (Json.obj [("event", .str ev), ("realityId", .str realityId)]).stringifyStr now
    (.json { id := realityId, userSession := sess, title := reality.title,
             description := reality.description, outcomes := reality.outcomes,
             probability := reality.probability, impact := reality.impact,
             timestamp := now },
     { st with db := db })

/-! ### GET /api/realities/:userSession -/

/-- A returned reality row: `...row` with `outcomes` replaced by the parsed
value. -/
structure RealityOut where
  id : String
  user_session : String
  title : String
  description : String
  original_event : String
  outcomes : Json
  probability_score : ℚ
  impact_score : ℤ
  created_at : ℕ

structure RealitiesResp where
  realities : List RealityOut
  count : ℕ

/-- `ORDER BY created_at DESC` (stable insertion sort, newest first). -/
def insertByDesc (r : RealityRow) : List RealityRow → List RealityRow
  | [] => [r]
  | x :: xs => if x.created_at < r.created_at then r :: x :: xs else x :: insertByDesc r xs

def sortByCreatedDesc : List RealityRow → List RealityRow
  | [] => []
  | x :: xs => insertByDesc x (sortByCreatedDesc xs)

/-- The SELECT of the realities handler: filter by session, order newest
first, apply OFFSET then LIMIT. -/
def selectRealities (db : DB) (sess : String) (limit offset : ℕ) : List RealityRow :=
  ((sortByCreatedDesc (db.realities.filter (fun r => r.user_session == sess))).drop offset).take limit

/-- `row.outcomes || '[]'`: null or empty text falls back to the literal
`"[]"`. -/
def outcomesText : Option String → String
  | none => "[]"
  | some s => if s = "" then "[]" else s

/-- One mapped row: `none` models `JSON.parse` throwing on the stored text. -/
def rowOut (r : RealityRow) : Option RealityOut :=
  (Json.parse (outcomesText r.outcomes)).map fun j =>
    { id := r.id, user_session := r.user_session, title := r.title,
      description := r.description, original_event := r.original_event,
      outcomes := j, probability_score := r.probability_score,
      impact_score := r.impact_score, created_at := r.created_at }

/-- `rows.map(...)`, which throws at the first row whose stored `outcomes`
text fails to parse. -/
def rowsOut : List RealityRow → Option (List RealityOut)
  | [] => some []
  | r :: rs =>
    match rowOut r, rowsOut rs with
    | some o, some os => some (o :: os)
    | _, _ => none

/-- `app.get('/api/realities/:userSession')`. -/
def getRealities (sess : String) (limit offset : ℕ) (st : ServerState) :
    HResp RealitiesResp × ServerState :=
  let sel := selectRealities st.db sess limit offset
  match rowsOut sel with
  | none => (.thrown, st)
  | some outs => (.json { realities := outs, count := sel.length }, st)

/-! ### POST /api/trees -/

structure TreesBody where
  treeData : Option Json
  userSession : Option String
  makePublic : Bool

structure TreeSaved where
  treeId : String
  shareToken : Option String
  shareUrl : Option String

/-- `app.post('/api/trees')`: no validation of the body; `JSON.stringify` of
an absent `treeData` is `undefined`, which the driver binds as NULL. -/
def postTrees (body : TreesBody) (proto host : String) (now : ℕ) (st : ServerState) :
    HResp TreeSaved × ServerState :=
  let (sess, st) := match body.userSession with
    | some s => (s, st)
    | none => nextUuidS st
  let (treeId, st) := nextUuidS st
  let (shareToken, st) :=
    if body.makePublic then
      let (u, st) := nextUuidS st
      (some u, st)
    else (none, st)
  let row : TreeRow :=
    { id := treeId, user_session := sess,
      tree_data := body.treeData.map Json.stringifyStr,
      share_token := shareToken, is_public := body.makePublic,
      view_count := 0, created_at := now }
  let db := { st.db with reality_trees := st.db.reality_trees ++ [row] }
  let db := logEvent db sess "save_tree"
    (Json.obj [("treeId", .str treeId), ("makePublic", .bool body.makePublic)]).stringifyStr now
  (.json { treeId := treeId, shareToken := shareToken,
           shareUrl := shareToken.map fun t => proto ++ "://" ++ host ++ "/share/" ++ t },
   { st with db := db })

/-! ### GET /api/trees/share/:shareToken -/

structure ShareView where
  id : String
  treeData : Json
  viewCount : ℕ
  createdAt : ℕ

/-- `JSON.parse(row.tree_data)`: a NULL column is the JavaScript `null`,
which `JSON.parse` coerces to the string `"null"` and parses to JSON null. -/
def parseColumn : Option String → Option Json
  | none => some .null
  | some s => Json.parse s

/-- The WHERE clause of the share lookup. -/
def shareMatch (tok : String) (r : TreeRow) : Bool :=
  r.share_token == some tok && r.is_public

/-- The UPDATE: increment `view_count` of every row with the given id. -/
def bumpView (rowId : String) (l : List TreeRow) : List TreeRow :=
  l.map fun r => if r.id == rowId then { r with view_count := r.view_count + 1 } else r

/-- `app.get('/api/trees/share/:shareToken')`: look up a public tree by
token (404 if absent), persist `view_count + 1`, respond with the
post-increment count. -/
def getShare (tok : String) (st : ServerState) : HResp ShareView × ServerState :=
  match st.db.reality_trees.find? (shareMatch tok) with
  | none => (.err 404 "Shared tree not found", st)
  | some row =>
    let st' := { st with db := { st.db with reality_trees := bumpView row.id st.db.reality_trees } }
    match parseColumn row.tree_data with
    | none => (.thrown, st')
    | some td =>
      (.json { id := row.id, treeData := td, viewCount := row.view_count + 1,
               createdAt := row.created_at }, st')

/-! ### GET /api/stats/:userSession -/

structure StatsResp where
  realitiesCreated : ℕ
  treesSaved : ℕ
  totalInteractions : ℕ
  diversityScore : ℤ

/-- `app.get('/api/stats/:userSession')`. -/
def getStats (sess : String) (st : ServerState) : HResp StatsResp × ServerState :=
  let rc := (st.db.realities.filter (fun r => r.user_session == sess)).length
  let tc := (st.db.reality_trees.filter (fun r => r.user_session == sess)).length
  let ic := (st.db.analytics.filter (fun r => r.user_session == sess)).length
  (.json { realitiesCreated := rc, treesSaved := tc, totalInteractions := ic,
           diversityScore := jsFloor ((rc : ℚ) * 1.7 + (ic : ℚ) * 0.3) }, st)

/-! ### POST /api/ai/enhance-reality (no persistence; consumes randomness) -/

def postEnhance (_realityTitle : String) (st : ServerState) : ServerState :=
  let (_, gs) := generateOutcomes st.gs
  { st with gs := gs }

/-! ## Exposed operations and reachable states -/

/-- One server request, as a transition on the whole server state. -/
inductive Step : ServerState → ServerState → Prop where
  | postRealities (body : RealitiesBody) (now : ℕ) (st : ServerState) :
      Step st (postRealities body now st).2
  | getRealities (sess : String) (limit offset : ℕ) (st : ServerState) :
      Step st (getRealities sess limit offset st).2
  | postTrees (body : TreesBody) (proto host : String) (now : ℕ) (st : ServerState) :
      Step st (postTrees body proto host now st).2
  | getShare (tok : String) (st : ServerState) :
      Step st (getShare tok st).2
  | getStats (sess : String) (st : ServerState) :
      Step st (getStats sess st).2
  | postEnhance (t : String) (st : ServerState) :
      Step st (postEnhance t st)

/-- States reachable from a fresh database by any sequence of requests. -/
def Reachable (gs0 : GenState) (st : ServerState) : Prop :=
  Relation.ReflTransGen Step ⟨DB.empty, gs0⟩ st

/-- The invariant of claim C4: a tree row carries a share token exactly when
it is public. -/
def treeInv (db : DB) : Prop :=
  ∀ r ∈ db.reality_trees, r.share_token.isSome = r.is_public

/-- The identity, share token and public flag of every tree row — the fields
no operation other than `POST /api/trees` may change. -/
def treeShape (db : DB) : List (String × Option String × Bool) :=
  db.reality_trees.map fun r => (r.id, r.share_token, r.is_public)

/-- Total variant of `rowOut` used to describe the successful response:
defined when every selected row parses. -/
def rowOutTotal (r : RealityRow) : RealityOut :=
  { id := r.id, user_session := r.user_session, title := r.title,
    description := r.description, original_event := r.original_event,
    outcomes := (Json.parse (outcomesText r.outcomes)).getD .null,
    probability_score := r.probability_score,
    impact_score := r.impact_score, created_at := r.created_at }

/-! ## Concrete fixtures for witnesses and counterexamples -/

def gs0 : GenState :=
  { rand := fun _ => 1/2, randIdx := 0, uuids := fun n => "uuid-" ++ toString n, uuidIdx := 0 }

def stEmpty : ServerState := ⟨DB.empty, gs0⟩

/-- A stored reality row whose `outcomes` text is not valid JSON. -/
def corruptRow : RealityRow :=
  { id := "r1", user_session := "s", title := "t", description := "d",
    original_event := "e", outcomes := some "oops", probability_score := 1/2,
    impact_score := 5, created_at := 1 }

def corruptSt : ServerState := ⟨⟨[corruptRow], [], [], 1⟩, gs0⟩

/-- A stored reality row whose `outcomes` column is NULL. -/
def nullOutcomesRow : RealityRow :=
  { id := "r2", user_session := "s", title := "t", description := "d",
    original_event := "e", outcomes := none, probability_score := 1/2,
    impact_score := 5, created_at := 2 }

def nullOutcomesSt : ServerState := ⟨⟨[nullOutcomesRow], [], [], 1⟩, gs0⟩

def mkStatsReality (n : ℕ) : RealityRow :=
  { id := "r" ++ toString n, user_session := "s", title := "t", description := "d",
    original_event := "e", outcomes := some "[]", probability_score := 1/2,
    impact_score := 5, created_at := n }

def mkStatsAnalytics (n : ℕ) : AnalyticsRow :=
  { id := n, user_session := "s", event_type := "create_reality",
    event_data := "[]", timestamp := n }

/-- A session with 3 stored realities and 5 analytics rows. -/
def statsSt : ServerState :=
  ⟨⟨[mkStatsReality 1, mkStatsReality 2, mkStatsReality 3], [],
    [mkStatsAnalytics 1, mkStatsAnalytics 2, mkStatsAnalytics 3,
     mkStatsAnalytics 4, mkStatsAnalytics 5], 6⟩, gs0⟩

def shareBody : TreesBody := { treeData := none, userSession := some "s", makePublic := true }

def shareBodyPrivate : TreesBody := { treeData := none, userSession := some "s", makePublic := false }

def blankBody : RealitiesBody := { event := some "   ", userSession := some "s" }

/-! ## Lemmas about whitespace and trimming -/

theorem dropWhile_isWs_idem (l : List Char) :
    (l.dropWhile isWs).dropWhile isWs = l.dropWhile isWs := by
  induction l with
  | nil => rfl
  | cons c cs ih =>
    by_cases h : isWs c
    · simpa [List.dropWhile_cons, h] using ih
    · simp [List.dropWhile_cons, h]

theorem trimList_dropWhile (l : List Char) :
    trimList (l.dropWhile isWs) = trimList l := by
  unfold trimList
  rw [dropWhile_isWs_idem]

theorem trimList_cons_ws {c : Char} (h : isWs c) (cs : List Char) :
    trimList (c :: cs) = trimList cs := by
  unfold trimList
  simp [List.dropWhile_cons, h]

/-- A string that matches `what if` case-insensitively up front cannot also
start with `if`. -/
theorem stripCI_whatif_not_if {l r : List Char}
    (h : stripCI ("what if".data) l = some r) : stripCI ("if".data) l = none := by
  cases l with
  | nil => simp [stripCI] at h
  | cons c cs =>
    have hw : ("what if".data) = 'w' :: "hat if".data := rfl
    rw [hw] at h
    unfold stripCI at h
    by_cases hc : ('w' : Char).toLower = c.toLower
    · have hcw : c.toLower = 'w' := by rw [← hc]; decide
      have hi : ("if".data) = 'i' :: "f".data := rfl
      rw [hi]
      unfold stripCI
      have hne : ¬ (('i' : Char).toLower = c.toLower) := by
        rw [hcw]; decide
      rw [if_neg hne]
    · rw [if_neg hc] at h
      exact absurd h (by simp)

/-- Claim C9 — `extractTitle` strips one leading case-insensitive `what if`
or `if` (only when followed by whitespace) and trims the remainder; strings
with no such leading occurrence come back trimmed but otherwise unchanged.
The code-side regex embedding agrees with the spec-side description on every
input string. -/
theorem extractTitle_matches_spec (s : String) : extractTitle s = extractTitleSpec s := by
  unfold extractTitle extractTitleSpec extractTitleSpec.tail replaceLeadingIf matchHeadWs
  cases hw : stripCI ("what if".data) s.data with
  | some r =>
    have hif := stripCI_whatif_not_if hw
    cases r with
    | nil => simp [hif]
    | cons c cs =>
      by_cases hc : isWs c
      · simp only [hc, if_true]
        rw [trimList_dropWhile cs, trimList_cons_ws hc cs]
      · simp [hc, hif]
  | none =>
    simp only
    cases hi : stripCI ("if".data) s.data with
    | some r =>
      cases r with
      | nil => simp
      | cons c cs =>
        by_cases hc : isWs c
        · simp only [hc, if_true]
          rw [trimList_dropWhile cs, trimList_cons_ws hc cs]
        · simp [hc]
    | none => simp

/-! ## Lemmas about the generator -/

theorem buildOutcomes_length (k i : ℕ) (gs : GenState) :
    (buildOutcomes k i gs).1.length = k := by
  induction k generalizing i gs with
  | zero => rfl
  | succ k ih => simp [buildOutcomes, nextRand, nextUuid, ih]

theorem buildOutcomes_rand (k i : ℕ) (gs : GenState) :
    (buildOutcomes k i gs).2.rand = gs.rand := by
  induction k generalizing i gs with
  | zero => rfl
  | succ k ih => simp [buildOutcomes, nextRand, nextUuid, ih]

theorem generateOutcomes_rand (gs : GenState) :
    (generateOutcomes gs).2.rand = gs.rand := by
  simp [generateOutcomes, nextRand, buildOutcomes_rand]

theorem generateDescription_rand (ev : String) (gs : GenState) :
    (generateDescription ev gs).2.rand = gs.rand := rfl

/-- Bounds for one floor-scaled draw `⌊u * m⌋` with `u ∈ [0,1)` and an
integer scale `m > 0`. -/
theorem floor_draw_bounds {u : ℚ} (m : ℤ) (h0 : 0 ≤ u) (h1 : u < 1) (hm : 0 < m) :
    0 ≤ ⌊u * (m : ℚ)⌋ ∧ ⌊u * (m : ℚ)⌋ < m := by
  have hmq : (0 : ℚ) < (m : ℚ) := by exact_mod_cast hm
  refine ⟨Int.floor_nonneg.mpr (mul_nonneg h0 hmq.le), ?_⟩
  rw [Int.floor_lt]
  nlinarith

/-- Claim C2 — for every non-empty event and every valid random source,
`generateReality` returns between 2 and 4 outcomes, a top-level probability
in `[0.2, 0.9)`, and an integer impact in `[3, 10]` (`impact` has type `ℤ`
in this model). -/
theorem generateReality_bounds (ev : String) (gs : GenState)
    (hr : ValidRand gs.rand) (_hev : ev ≠ "") :
    2 ≤ (generateReality ev gs).1.outcomes.length ∧
    (generateReality ev gs).1.outcomes.length ≤ 4 ∧
    (0.2 : ℚ) ≤ (generateReality ev gs).1.probability ∧
    (generateReality ev gs).1.probability < 0.9 ∧
    3 ≤ (generateReality ev gs).1.impact ∧
    (generateReality ev gs).1.impact ≤ 10 := by
  have hrand2 : ((generateDescription ev (generateOutcomes gs).2).2).rand = gs.rand := by
    rw [generateDescription_rand, generateOutcomes_rand]
  have hlen : (generateReality ev gs).1.outcomes.length =
      (⌊gs.rand gs.randIdx * 3⌋).toNat + 2 := by
    simp [generateReality, runGenerate, generateRealityTry, generateOutcomes,
      nextRand, jsFloor, buildOutcomes_length]
  have hprob : (generateReality ev gs).1.probability =
      gs.rand (((generateDescription ev (generateOutcomes gs).2).2).randIdx) * 0.7 + 0.2 := by
    simp only [generateReality, runGenerate, generateRealityTry, nextRand]
    rw [hrand2]
  have himp : (generateReality ev gs).1.impact =
      ⌊gs.rand (((generateDescription ev (generateOutcomes gs).2).2).randIdx + 1) * 8⌋ + 3 := by
    simp only [generateReality, runGenerate, generateRealityTry, nextRand, jsFloor]
    rw [hrand2]
  obtain ⟨h00, h01⟩ := hr gs.randIdx
  obtain ⟨h10, h11⟩ := hr (((generateDescription ev (generateOutcomes gs).2).2).randIdx)
  obtain ⟨h20, h21⟩ := hr (((generateDescription ev (generateOutcomes gs).2).2).randIdx + 1)
  have hf0 := floor_draw_bounds 3 h00 h01 (by norm_num)
  have hf2 := floor_draw_bounds 8 h20 h21 (by norm_num)
  push_cast at hf0 hf2
  refine ⟨?_, ?_, ?_, ?_, ?_, ?_⟩
  · rw [hlen]; omega
  · rw [hlen]
    have := hf0.1
    have := hf0.2
    omega
  · rw [hprob]; nlinarith
  · rw [hprob]; nlinarith
  · rw [himp]
    have := hf2.1
    omega
  · rw [himp]
    have := hf2.2
    omega

/-- Witness for claim C2 at a concrete random source and event. -/
theorem generateReality_bounds_witness :
    ValidRand gs0.rand ∧ ("x" : String) ≠ "" ∧
    2 ≤ (generateReality "x" gs0).1.outcomes.length ∧
    (generateReality "x" gs0).1.outcomes.length ≤ 4 ∧
    (0.2 : ℚ) ≤ (generateReality "x" gs0).1.probability ∧
    (generateReality "x" gs0).1.probability < 0.9 ∧
    3 ≤ (generateReality "x" gs0).1.impact ∧
    (generateReality "x" gs0).1.impact ≤ 10 :=
  have hv : ValidRand gs0.rand := fun _ => ⟨by norm_num [gs0], by norm_num [gs0]⟩
  ⟨hv, by decide, generateReality_bounds "x" gs0 hv (by decide)⟩

/-- Claim C8 (amended) — whenever the generation body raises, the
`try`/`catch` dispatch of `generateReality` produces exactly
`generateFallbackReality`, whose result has the title extracted from the
phrase, a description built from the lower-cased phrase by a fixed template,
exactly one canned outcome (fresh id, fixed other fields), top-level
probability `0.5` and impact `6`; the fallback is a total function on
strings, so it never fails on any non-empty input. -/
theorem generateReality_fallback (ev : String) (gs : GenState) (e : Unit) (_hev : ev ≠ "") :
    runGenerate (.error e) ev gs = generateFallbackReality ev gs ∧
    (generateFallbackReality ev gs).1.title = extractTitle ev ∧
    (generateFallbackReality ev gs).1.description =
      "A reality where " ++ jsToLower ev ++ " led to profound changes" ∧
    (generateFallbackReality ev gs).1.outcomes =
      [{ id := gs.uuids gs.uuidIdx, title := "Alternative Path",
         description := "This path led to unexpected developments",
         probability := 0.6, impact := 7,
         consequences := ["significant life changes"] }] ∧
    (generateFallbackReality ev gs).1.probability = 0.5 ∧
    (generateFallbackReality ev gs).1.impact = 6 :=
  ⟨rfl, rfl, rfl, rfl, rfl, rfl⟩

/-- Counterexample for claim C8 as stated: the fallback description is not a
fixed string — it interpolates the lower-cased phrase, so two different
events produce two different descriptions. -/
theorem fallback_description_not_fixed :
    (generateFallbackReality "a" gs0).1.description ≠
      (generateFallbackReality "b" gs0).1.description := by
  decide

/-- Witness for claim C8 at a concrete event and generator state. -/
theorem generateReality_fallback_witness :
    ("x" : String) ≠ "" ∧
    runGenerate (.error ()) "x" gs0 = generateFallbackReality "x" gs0 ∧
    (generateFallbackReality "x" gs0).1.title = extractTitle "x" ∧
    (generateFallbackReality "x" gs0).1.description =
      "A reality where " ++ jsToLower "x" ++ " led to profound changes" ∧
    (generateFallbackReality "x" gs0).1.outcomes =
      [{ id := gs0.uuids gs0.uuidIdx, title := "Alternative Path",
         description := "This path led to unexpected developments",
         probability := 0.6, impact := 7,
         consequences := ["significant life changes"] }] ∧
    (generateFallbackReality "x" gs0).1.probability = 0.5 ∧
    (generateFallbackReality "x" gs0).1.impact = 6 :=
  ⟨by decide, generateReality_fallback "x" gs0 () (by decide)⟩

/-! ## Claim C5: blank-event validation -/

/-- Claim C5 — a request whose `event` is missing, empty, or whitespace-only
is answered 400 with the error object; the store is unchanged and the
generator is never invoked (no random draw is consumed). -/
theorem postRealities_rejects_blank (body : RealitiesBody) (now : ℕ) (st : ServerState)
    (h : ∀ s, body.event = some s → trimList s.data = []) :
    (postRealities body now st).1 = .err 400 "Event description is required" ∧
    (postRealities body now st).2.db = st.db ∧
    (postRealities body now st).2.gs.randIdx = st.gs.randIdx := by
  unfold postRealities
  cases hu : body.userSession <;> cases he : body.event <;>
    simp only [nextUuidS, nextUuid]
  all_goals try rw [h _ he]
  all_goals refine ⟨?_, ?_, ?_⟩ <;> first | rfl | trivial

/-- Witness for claim C5: a whitespace-only event against the empty store. -/
theorem postRealities_rejects_blank_witness :
    (∀ s, blankBody.event = some s → trimList s.data = []) ∧
    (postRealities blankBody 0 stEmpty).1 = .err 400 "Event description is required" ∧
    (postRealities blankBody 0 stEmpty).2.db = stEmpty.db ∧
    (postRealities blankBody 0 stEmpty).2.gs.randIdx = stEmpty.gs.randIdx :=
  ⟨by decide, postRealities_rejects_blank blankBody 0 stEmpty (by decide)⟩

/-! ## Claim C6: share lookup misses -/

/-- Claim C6 — a share-token lookup that matches no stored tree, or only a
tree that is not public, is answered 404 with the error object and leaves the
whole state (in particular every `view_count`) unchanged. -/
theorem getShare_not_found (tok : String) (st : ServerState)
    (h : ∀ r ∈ st.db.reality_trees, ¬(r.share_token = some tok ∧ r.is_public = true)) :
    getShare tok st = (.err 404 "Shared tree not found", st) := by
  have hf : st.db.reality_trees.find? (shareMatch tok) = none := by
    rw [List.find?_eq_none]
    intro r hr
    simp only [shareMatch, Bool.and_eq_true, beq_iff_eq]
    exact fun hc => h r hr ⟨hc.1, hc.2⟩
  unfold getShare
  rw [hf]

/-- Witness for claim C6: unknown token against the empty store. -/
theorem getShare_not_found_witness :
    (∀ r ∈ stEmpty.db.reality_trees, ¬(r.share_token = some "zz" ∧ r.is_public = true)) ∧
    getShare "zz" stEmpty = (.err 404 "Shared tree not found", stEmpty) :=
  have h : ∀ r ∈ stEmpty.db.reality_trees, ¬(r.share_token = some "zz" ∧ r.is_public = true) :=
    fun r hr => absurd hr (by simp [stEmpty, DB.empty])
  ⟨h, getShare_not_found "zz" stEmpty h⟩

/-! ## Claim C7: stats -/

/-- Claim C7 — the stats response reports the per-session row counts of the
three tables and `diversityScore = ⌊realityCount * 1.7 + interactionCount *
0.3⌋`; in particular a session with 3 realities and 5 analytics rows scores
`⌊6.6⌋ = 6`. -/
theorem getStats_diversityScore :
    (∀ (st : ServerState) (sess : String),
      (getStats sess st).1 = .json
        { realitiesCreated := (st.db.realities.filter (fun r => r.user_session == sess)).length,
          treesSaved := (st.db.reality_trees.filter (fun r => r.user_session == sess)).length,
          totalInteractions := (st.db.analytics.filter (fun r => r.user_session == sess)).length,
          diversityScore :=
            ⌊((st.db.realities.filter (fun r => r.user_session == sess)).length : ℚ) * 1.7 +
             ((st.db.analytics.filter (fun r => r.user_session == sess)).length : ℚ) * 0.3⌋ }) ∧
    (getStats "s" statsSt).1 = .json ⟨3, 0, 5, 6⟩ := by
  constructor
  · intro st sess
    rfl
  · have h1 : (getStats "s" statsSt).1 =
        .json ⟨3, 0, 5, ⌊((3 : ℕ) : ℚ) * 1.7 + ((5 : ℕ) : ℚ) * 0.3⌋⟩ := rfl
    have h2 : ⌊((3 : ℕ) : ℚ) * 1.7 + ((5 : ℕ) : ℚ) * 0.3⌋ = (6 : ℤ) := by
      push_cast
      norm_num
    rw [h1, h2]

/-! ## Claim C10: POST /api/trees accepts anything -/

/-- Full characterisation of `postTrees`: the handler always answers 200 with
a minted tree id, stores the serialisation of whatever `treeData` was
supplied (NULL when absent), and mints a share token drawn fresh from the
uuid supply exactly when `makePublic` is true. -/
theorem postTrees_spec (body : TreesBody) (proto host : String) (now : ℕ) (st : ServerState) :
    ∃ (sess treeId : String) (tok : Option String),
      (postTrees body proto host now st).1 =
        .json { treeId := treeId, shareToken := tok,
                shareUrl := tok.map fun t => proto ++ "://" ++ host ++ "/share/" ++ t } ∧
      tok.isSome = body.makePublic ∧
      (body.makePublic = true → ∃ n, st.gs.uuidIdx ≤ n ∧ tok = some (st.gs.uuids n)) ∧
      (postTrees body proto host now st).2.db.reality_trees =
        st.db.reality_trees ++
          [{ id := treeId, user_session := sess,
             tree_data := body.treeData.map Json.stringifyStr,
             share_token := tok, is_public := body.makePublic,
             view_count := 0, created_at := now }] := by
  obtain ⟨td, us, mp⟩ := body
  cases us <;> cases mp
  · exact ⟨st.gs.uuids st.gs.uuidIdx, st.gs.uuids (st.gs.uuidIdx + 1), none,
      rfl, rfl, by simp, rfl⟩
  · exact ⟨st.gs.uuids st.gs.uuidIdx, st.gs.uuids (st.gs.uuidIdx + 1),
      some (st.gs.uuids (st.gs.uuidIdx + 2)),
      rfl, rfl, fun _ => ⟨st.gs.uuidIdx + 2, by omega, rfl⟩, rfl⟩
  · exact ⟨_, st.gs.uuids st.gs.uuidIdx, none, rfl, rfl, by simp, rfl⟩
  · exact ⟨_, st.gs.uuids st.gs.uuidIdx, some (st.gs.uuids (st.gs.uuidIdx + 1)),
      rfl, rfl, fun _ => ⟨st.gs.uuidIdx + 1, by omega, rfl⟩, rfl⟩

/-- Claim C10 — `POST /api/trees` performs no validation: for every request
body (in particular one with `treeData` absent, or of any JSON shape) the
handler answers 200 with a minted tree id, persists a row whose `tree_data`
column holds the serialisation of whatever was supplied (NULL-like when
absent), and mints a share token exactly when `makePublic` is true. -/
theorem postTrees_no_validation (body : TreesBody) (proto host : String) (now : ℕ)
    (st : ServerState) :
    ∃ (sess treeId : String) (tok : Option String),
      (postTrees body proto host now st).1 =
        .json { treeId := treeId, shareToken := tok,
                shareUrl := tok.map fun t => proto ++ "://" ++ host ++ "/share/" ++ t } ∧
      tok.isSome = body.makePublic ∧
      (postTrees body proto host now st).2.db.reality_trees =
        st.db.reality_trees ++
          [{ id := treeId, user_session := sess,
             tree_data := body.treeData.map Json.stringifyStr,
             share_token := tok, is_public := body.makePublic,
             view_count := 0, created_at := now }] := by
  obtain ⟨sess, treeId, tok, h1, h2, _, h4⟩ := postTrees_spec body proto host now st
  exact ⟨sess, treeId, tok, h1, h2, h4⟩

/-! ## Claim C4: the share-token/public invariant -/

theorem postRealities_trees (body : RealitiesBody) (now : ℕ) (st : ServerState) :
    (postRealities body now st).2.db.reality_trees = st.db.reality_trees := by
  obtain ⟨ev, us⟩ := body
  cases us <;> cases ev <;>
    simp only [postRealities, nextUuidS, nextUuid, logEvent] <;>
    (try split) <;> rfl

theorem getRealities_state (sess : String) (limit offset : ℕ) (st : ServerState) :
    (getRealities sess limit offset st).2 = st := by
  unfold getRealities
  cases h : rowsOut (selectRealities st.db sess limit offset) <;> simp [h]

theorem getStats_state (sess : String) (st : ServerState) :
    (getStats sess st).2 = st := rfl

theorem treeShape_bump (x : String) (l : List TreeRow) :
    (bumpView x l).map (fun r => (r.id, r.share_token, r.is_public)) =
      l.map fun r => (r.id, r.share_token, r.is_public) := by
  unfold bumpView
  rw [List.map_map]
  apply List.map_congr_left
  intro r _
  by_cases h : r.id == x <;> simp [Function.comp, h]

theorem getShare_treeShape (tok : String) (st : ServerState) :
    treeShape (getShare tok st).2.db = treeShape st.db := by
  unfold getShare
  cases hf : st.db.reality_trees.find? (shareMatch tok) with
  | none => rfl
  | some row =>
    dsimp only
    cases hp : parseColumn row.tree_data <;> simp only [hp] <;>
      exact treeShape_bump row.id st.db.reality_trees

/-- Transport the invariant along equal tree shapes. -/
theorem treeInv_of_shape (db' db : DB) (h : treeShape db' = treeShape db)
    (hi : treeInv db) : treeInv db' := by
  intro r hr
  have hm : (r.id, r.share_token, r.is_public) ∈ treeShape db' :=
    List.mem_map_of_mem _ hr
  rw [h] at hm
  obtain ⟨r₀, hr₀, heq⟩ := List.mem_map.mp hm
  have h1 : r₀.share_token = r.share_token := congrArg (fun p => p.2.1) heq
  have h2 : r₀.is_public = r.is_public := congrArg (fun p => p.2.2) heq
  rw [← h1, ← h2]
  exact hi r₀ hr₀

/-- Every exposed operation preserves the share-token/public invariant. -/
theorem step_treeInv {st st' : ServerState} (h : Step st st') (hi : treeInv st.db) :
    treeInv st'.db := by
  cases h with
  | postRealities body now st =>
    intro r hr
    rw [postRealities_trees] at hr
    exact hi r hr
  | getRealities sess limit offset st =>
    rw [getRealities_state]
    exact hi
  | postTrees body proto host now st =>
    obtain ⟨sess, treeId, tok, _, htok, _, htrees⟩ := postTrees_spec body proto host now st
    intro r hr
    rw [htrees] at hr
    rcases List.mem_append.mp hr with h1 | h2
    · exact hi r h1
    · rw [List.mem_singleton] at h2
      subst h2
      exact htok
  | getShare tok st =>
    exact treeInv_of_shape _ _ (getShare_treeShape tok st) hi
  | getStats sess st =>
    rw [getStats_state]
    exact hi
  | postEnhance t st =>
    exact hi

/-- The invariant holds in every state reachable from a fresh database. -/
theorem reachable_treeInv (g : GenState) (st : ServerState) (h : Reachable g st) :
    treeInv st.db := by
  unfold Reachable at h
  induction h with
  | refl => exact fun r hr => absurd hr (List.not_mem_nil r)
  | tail _ hstep ih => exact step_treeInv hstep ih

/-- Claim C4 — in every reachable state, a tree row has a share token exactly
when it is public; `POST /api/trees` with `makePublic = false` stores a NULL
token and a false flag, with `makePublic = true` a freshly minted token and a
true flag; and no other exposed operation changes the id, token or public
flag of any stored tree row. -/
theorem shareToken_iff_isPublic :
    (∀ (g : GenState) (st : ServerState), Reachable g st → treeInv st.db) ∧
    (∀ (body : TreesBody) (proto host : String) (now : ℕ) (st : ServerState),
      body.makePublic = false →
      ∃ (sess treeId : String),
        (postTrees body proto host now st).2.db.reality_trees =
          st.db.reality_trees ++
            [{ id := treeId, user_session := sess,
               tree_data := body.treeData.map Json.stringifyStr,
               share_token := none, is_public := false,
               view_count := 0, created_at := now }]) ∧
    (∀ (body : TreesBody) (proto host : String) (now : ℕ) (st : ServerState),
      body.makePublic = true →
      ∃ (sess treeId : String) (n : ℕ), st.gs.uuidIdx ≤ n ∧
        (postTrees body proto host now st).2.db.reality_trees =
          st.db.reality_trees ++
            [{ id := treeId, user_session := sess,
               tree_data := body.treeData.map Json.stringifyStr,
               share_token := some (st.gs.uuids n), is_public := true,
               view_count := 0, created_at := now }]) ∧
    (∀ (body : RealitiesBody) (now : ℕ) (st : ServerState),
      treeShape (postRealities body now st).2.db = treeShape st.db) ∧
    (∀ (sess : String) (limit offset : ℕ) (st : ServerState),
      treeShape (getRealities sess limit offset st).2.db = treeShape st.db) ∧
    (∀ (tok : String) (st : ServerState),
      treeShape (getShare tok st).2.db = treeShape st.db) ∧
    (∀ (sess : String) (st : ServerState),
      treeShape (getStats sess st).2.db = treeShape st.db) := by
  refine ⟨reachable_treeInv, ?_, ?_, ?_, ?_, getShare_treeShape, ?_⟩
  · intro body proto host now st hm
    obtain ⟨sess, treeId, tok, _, htok, _, htrees⟩ := postTrees_spec body proto host now st
    rw [hm] at htok
    have : tok = none := Option.not_isSome_iff_eq_none.mp (by simp [htok])
    subst this
    rw [hm] at htrees
    exact ⟨sess, treeId, htrees⟩
  · intro body proto host now st hm
    obtain ⟨sess, treeId, tok, _, _, hfresh, htrees⟩ := postTrees_spec body proto host now st
    obtain ⟨n, hn, htokval⟩ := hfresh hm
    subst htokval
    rw [hm] at htrees
    exact ⟨sess, treeId, n, hn, htrees⟩
  · intro body now st
    unfold treeShape
    rw [postRealities_trees]
  · intro sess limit offset st
    rw [getRealities_state]
  · intro sess st
    rw [getStats_state]

/-- Witness for claim C4: the invariant at a concrete reachable state, and a
concrete private save. -/
theorem shareToken_iff_isPublic_witness :
    treeInv stEmpty.db ∧
    (∃ (sess treeId : String),
      (postTrees shareBodyPrivate "http" "h" 0 stEmpty).2.db.reality_trees =
        stEmpty.db.reality_trees ++
          [{ id := treeId, user_session := sess, tree_data := none,
             share_token := none, is_public := false,
             view_count := 0, created_at := 0 }]) :=
  ⟨shareToken_iff_isPublic.1 gs0 stEmpty Relation.ReflTransGen.refl,
   shareToken_iff_isPublic.2.1 shareBodyPrivate "http" "h" 0 stEmpty rfl⟩

/-! ## Claim C1: deserialising stored outcomes -/

theorem rowsOut_all (l : List RealityRow)
    (h : ∀ r ∈ l, (Json.parse (outcomesText r.outcomes)).isSome) :
    rowsOut l = some (l.map rowOutTotal) := by
  induction l with
  | nil => rfl
  | cons r rs ih =>
    obtain ⟨j, hj⟩ := Option.isSome_iff_exists.mp (h r (List.mem_cons_self r rs))
    have htail := ih fun x hx => h x (List.mem_cons_of_mem r hx)
    simp [rowsOut, rowOut, rowOutTotal, hj, htail]

theorem rowsOut_none (l : List RealityRow)
    (h : ∃ r ∈ l, (Json.parse (outcomesText r.outcomes)).isSome = false) :
    rowsOut l = none := by
  induction l with
  | nil =>
    obtain ⟨r, hr, _⟩ := h
    exact absurd hr (List.not_mem_nil r)
  | cons r rs ih =>
    obtain ⟨x, hx, hpx⟩ := h
    rcases List.mem_cons.mp hx with rfl | hx'
    · have hro : rowOut x = none := by
        unfold rowOut
        cases hp : Json.parse (outcomesText x.outcomes)
        · rfl
        · rw [hp] at hpx
          simp at hpx
      simp [rowsOut, hro]
    · have htail := ih ⟨x, hx', hpx⟩
      cases hro : rowOut r <;> simp [rowsOut, hro, htail]

/-- Claim C1 (amended) — every returned row carries the stored `outcomes`
text deserialised into structured JSON, and an absent (NULL or empty) text
yields the empty array; but stored text that is present and not valid JSON
makes the handler throw, so that request produces no response instead of an
empty array. -/
theorem getRealities_outcomes_handling (st : ServerState) (sess : String) (limit offset : ℕ) :
    ((∀ r ∈ selectRealities st.db sess limit offset,
        (Json.parse (outcomesText r.outcomes)).isSome) →
      (getRealities sess limit offset st).1 =
        .json { realities := (selectRealities st.db sess limit offset).map rowOutTotal,
                count := (selectRealities st.db sess limit offset).length }) ∧
    ((∃ r ∈ selectRealities st.db sess limit offset,
        (Json.parse (outcomesText r.outcomes)).isSome = false) →
      (getRealities sess limit offset st).1 = .thrown) ∧
    outcomesText none = "[]" ∧
    Json.parse "[]" = some (.arr []) ∧
    (∀ r : RealityRow, r.outcomes = none → (rowOutTotal r).outcomes = .arr []) := by
  refine ⟨?_, ?_, rfl, rfl, ?_⟩
  · intro h
    unfold getRealities
    simp [rowsOut_all _ h]
  · intro h
    unfold getRealities
    simp [rowsOut_none _ h]
  · intro r hr
    show (Json.parse (outcomesText r.outcomes)).getD .null = .arr []
    rw [hr]
    rfl

/-- Counterexample for claim C1 as stated: a stored row whose `outcomes` text
is `oops` (present but not valid JSON) makes the GET handler throw — the
request fails instead of answering with an empty outcomes array. -/
theorem getRealities_corrupt_outcomes_throws :
    (getRealities "s" 20 0 corruptSt).1 = .thrown := rfl

/-- Witness for claim C1: a row with a NULL `outcomes` column round-trips to
the empty array in a successful response. -/
theorem getRealities_outcomes_handling_witness :
    (∀ r ∈ selectRealities nullOutcomesSt.db "s" 20 0,
      (Json.parse (outcomesText r.outcomes)).isSome) ∧
    (getRealities "s" 20 0 nullOutcomesSt).1 =
      .json { realities := (selectRealities nullOutcomesSt.db "s" 20 0).map rowOutTotal,
              count := (selectRealities nullOutcomesSt.db "s" 20 0).length } :=
  ⟨by decide, (getRealities_outcomes_handling nullOutcomesSt "s" 20 0).1 (by decide)⟩

/-! ## Claim C3: view counting on shared trees -/

theorem find?_append_none {p : TreeRow → Bool} {l1 : List TreeRow}
    (h : ∀ r ∈ l1, p r = false) (l2 : List TreeRow) :
    (l1 ++ l2).find? p = l2.find? p := by
  induction l1 with
  | nil => rfl
  | cons a t ih =>
    have ha := h a (List.mem_cons_self a t)
    simp only [List.cons_append, List.find?, ha]
    exact ih fun r hr => h r (List.mem_cons_of_mem a hr)

theorem find?_singleton_pos {p : TreeRow → Bool} {a : TreeRow} (h : p a = true) :
    [a].find? p = some a := by
  simp only [List.find?, h]

theorem bumpView_append (x : String) (l1 l2 : List TreeRow) :
    bumpView x (l1 ++ l2) = bumpView x l1 ++ bumpView x l2 :=
  List.map_append _ _ _

theorem bumpView_fresh {x : String} {l : List TreeRow} (h : ∀ r ∈ l, r.id ≠ x) :
    bumpView x l = l := by
  induction l with
  | nil => rfl
  | cons a t ih =>
    have ha : (a.id == x) = false := beq_eq_false_iff_ne.mpr (h a (List.mem_cons_self a t))
    have htail := ih fun r hr => h r (List.mem_cons_of_mem a hr)
    simp only [bumpView, List.map_cons, ha, if_neg Bool.false_ne_true]
    unfold bumpView at htail
    rw [htail]

theorem getShare_found_state {tok : String} {st : ServerState} {row : TreeRow}
    (hf : st.db.reality_trees.find? (shareMatch tok) = some row) :
    (getShare tok st).2 =
      { st with db := { st.db with reality_trees := bumpView row.id st.db.reality_trees } } := by
  unfold getShare
  rw [hf]
  dsimp only
  cases hp : parseColumn row.tree_data <;> rfl

theorem getShare_found_resp {tok : String} {st : ServerState} {row : TreeRow} {td : Json}
    (hf : st.db.reality_trees.find? (shareMatch tok) = some row)
    (hp : parseColumn row.tree_data = some td) :
    (getShare tok st).1 =
      .json { id := row.id, treeData := td, viewCount := row.view_count + 1,
              createdAt := row.created_at } := by
  unfold getShare
  rw [hf]
  dsimp only
  rw [hp]

/-- Claim C3 — a successful share fetch persists `view_count + 1` and
answers with the post-increment count; a tree saved public (view count 0 on
creation) therefore answers `viewCount = 1` on the first fetch and
`viewCount = 2` on the second. -/
theorem shareView_increments :
    (∀ (st : ServerState) (tok : String) (row : TreeRow) (td : Json),
      st.db.reality_trees.find? (shareMatch tok) = some row →
      parseColumn row.tree_data = some td →
      (getShare tok st).1 =
        .json { id := row.id, treeData := td, viewCount := row.view_count + 1,
                createdAt := row.created_at } ∧
      (getShare tok st).2.db.reality_trees = bumpView row.id st.db.reality_trees) ∧
    (∀ (td : Option Json) (sess proto host : String) (now : ℕ) (st : ServerState),
      (∀ r ∈ st.db.reality_trees, r.share_token ≠ some (st.gs.uuids (st.gs.uuidIdx + 1))) →
      (∀ r ∈ st.db.reality_trees, r.id ≠ st.gs.uuids st.gs.uuidIdx) →
      (parseColumn (td.map Json.stringifyStr)).isSome →
      ∃ v1 v2 : ShareView,
        (getShare (st.gs.uuids (st.gs.uuidIdx + 1))
            (postTrees ⟨td, some sess, true⟩ proto host now st).2).1 = .json v1 ∧
        v1.viewCount = 1 ∧
        (getShare (st.gs.uuids (st.gs.uuidIdx + 1))
            (getShare (st.gs.uuids (st.gs.uuidIdx + 1))
              (postTrees ⟨td, some sess, true⟩ proto host now st).2).2).1 = .json v2 ∧
        v2.viewCount = 2) := by
  constructor
  · intro st tok row td hf hp
    refine ⟨getShare_found_resp hf hp, ?_⟩
    rw [getShare_found_state hf]
  · intro td sess proto host now st htok hid hp
    obtain ⟨jd, hjd⟩ := Option.isSome_iff_exists.mp hp
    have htrees1 : (postTrees ⟨td, some sess, true⟩ proto host now st).2.db.reality_trees =
        st.db.reality_trees ++
          [{ id := st.gs.uuids st.gs.uuidIdx, user_session := sess,
             tree_data := td.map Json.stringifyStr,
             share_token := some (st.gs.uuids (st.gs.uuidIdx + 1)), is_public := true,
             view_count := 0, created_at := now }] := rfl
    have hold : ∀ r ∈ st.db.reality_trees,
        shareMatch (st.gs.uuids (st.gs.uuidIdx + 1)) r = false := by
      intro r hr
      have hne : (r.share_token == some (st.gs.uuids (st.gs.uuidIdx + 1))) = false :=
        beq_eq_false_iff_ne.mpr (htok r hr)
      simp [shareMatch, hne]
    have hm0 : shareMatch (st.gs.uuids (st.gs.uuidIdx + 1))
        { id := st.gs.uuids st.gs.uuidIdx, user_session := sess,
          tree_data := td.map Json.stringifyStr,
          share_token := some (st.gs.uuids (st.gs.uuidIdx + 1)), is_public := true,
          view_count := 0, created_at := now } = true := by
      simp [shareMatch]
    have hfind1 : (postTrees ⟨td, some sess, true⟩ proto host now st).2.db.reality_trees.find?
        (shareMatch (st.gs.uuids (st.gs.uuidIdx + 1))) = some
          { id := st.gs.uuids st.gs.uuidIdx, user_session := sess,
            tree_data := td.map Json.stringifyStr,
            share_token := some (st.gs.uuids (st.gs.uuidIdx + 1)), is_public := true,
            view_count := 0, created_at := now } := by
      rw [htrees1, find?_append_none hold, find?_singleton_pos hm0]
    have hp0 : parseColumn (td.map Json.stringifyStr) = some jd := hjd
    have hresp1 := getShare_found_resp hfind1 hp0
    have hstate1 := getShare_found_state hfind1
    have htrees2 : (getShare (st.gs.uuids (st.gs.uuidIdx + 1))
        (postTrees ⟨td, some sess, true⟩ proto host now st).2).2.db.reality_trees =
        st.db.reality_trees ++
          [{ id := st.gs.uuids st.gs.uuidIdx, user_session := sess,
             tree_data := td.map Json.stringifyStr,
             share_token := some (st.gs.uuids (st.gs.uuidIdx + 1)), is_public := true,
             view_count := 1, created_at := now }] := by
      rw [hstate1]
      dsimp only
      rw [htrees1, bumpView_append, bumpView_fresh hid]
      simp [bumpView]
    have hm1 : shareMatch (st.gs.uuids (st.gs.uuidIdx + 1))
        { id := st.gs.uuids st.gs.uuidIdx, user_session := sess,
          tree_data := td.map Json.stringifyStr,
          share_token := some (st.gs.uuids (st.gs.uuidIdx + 1)), is_public := true,
          view_count := 1, created_at := now } = true := by
      simp [shareMatch]
    have hfind2 : (getShare (st.gs.uuids (st.gs.uuidIdx + 1))
        (postTrees ⟨td, some sess, true⟩ proto host now st).2).2.db.reality_trees.find?
        (shareMatch (st.gs.uuids (st.gs.uuidIdx + 1))) = some
          { id := st.gs.uuids st.gs.uuidIdx, user_session := sess,
            tree_data := td.map Json.stringifyStr,
            share_token := some (st.gs.uuids (st.gs.uuidIdx + 1)), is_public := true,
            view_count := 1, created_at := now } := by
      rw [htrees2, find?_append_none hold, find?_singleton_pos hm1]
    have hresp2 := getShare_found_resp hfind2 hp0
    exact ⟨_, _, hresp1, rfl, hresp2, rfl⟩

/-- Witness for claim C3: save a public tree (absent `treeData`) against the
empty store and fetch it twice. -/
theorem shareView_increments_witness :
    (∀ r ∈ stEmpty.db.reality_trees,
      r.share_token ≠ some (stEmpty.gs.uuids (stEmpty.gs.uuidIdx + 1))) ∧
    (∀ r ∈ stEmpty.db.reality_trees, r.id ≠ stEmpty.gs.uuids stEmpty.gs.uuidIdx) ∧
    (parseColumn ((none : Option Json).map Json.stringifyStr)).isSome ∧
    (∃ v1 v2 : ShareView,
      (getShare (stEmpty.gs.uuids (stEmpty.gs.uuidIdx + 1))
          (postTrees ⟨none, some "s", true⟩ "http" "h" 0 stEmpty).2).1 = .json v1 ∧
      v1.viewCount = 1 ∧
      (getShare (stEmpty.gs.uuids (stEmpty.gs.uuidIdx + 1))
          (getShare (stEmpty.gs.uuids (stEmpty.gs.uuidIdx + 1))
            (postTrees ⟨none, some "s", true⟩ "http" "h" 0 stEmpty).2).2).1 = .json v2 ∧
      v2.viewCount = 2) :=
  have h1 : ∀ r ∈ stEmpty.db.reality_trees,
      r.share_token ≠ some (stEmpty.gs.uuids (stEmpty.gs.uuidIdx + 1)) :=
    fun r hr => absurd hr (List.not_mem_nil r)
  have h2 : ∀ r ∈ stEmpty.db.reality_trees, r.id ≠ stEmpty.gs.uuids stEmpty.gs.uuidIdx :=
    fun r hr => absurd hr (List.not_mem_nil r)
  ⟨h1, h2, rfl, shareView_increments.2 none "s" "http" "h" 0 stEmpty h1 h2 rfl⟩

end EchoVerse
